import Mathlib

/-!
A shallow embedding of the fmidi MIDI-file player (`fmidi_player.cc`) and
proofs about its tick/drain loop, start/stop/rewind state machine, and the
goto-time seek engine.

Times (`double` in the C source) are modelled as rationals, machine bytes as
natural numbers with the source's explicit masking.  The external Event
Sequence collaborator (peek / advance / rewind cursor over time-stamped
events) is modelled from the spec as a list with a cursor index.  Callbacks
are modelled as optional functions; the event callback may mutate the player
state, which models a reentrant callback that calls back into the player.
-/

namespace Fmidi

/-- Event payload kind.  Modelled from the spec: the payload of interest is a
channel message; meta and system-exclusive payloads are opaque to this core. -/
inductive FmidiEventType where
  | message
  | meta
  | sysex
  deriving DecidableEq

/-- An event record (`fmidi_event_t`): type tag, delta time, payload length and
payload bytes (`data[0]` is the status byte for channel messages). -/
structure FmidiEvent where
  type : FmidiEventType
  delta : Nat
  datalen : Nat
  data : List Nat
  deriving DecidableEq

/-- A sequence event (`fmidi_seq_event_t`): an absolute timestamp in seconds
paired with the event. -/
structure SeqEvent where
  time : ℚ
  event : FmidiEvent
  deriving DecidableEq

/-- The full mutable player state: the `fmidi_player_context` fields
(`timepos`, `speed`, `prev_tick`, `have_tick`, `have_event`, `sqevt`), the
`fmidi_player` fields (`running`, and the host timer registration), and the
Event Sequence cursor (modelled from the spec as an immutable event list
plus a cursor index). -/
structure PlayerState where
  events : List SeqEvent
  cursor : Nat
  timepos : ℚ
  speed : ℚ
  prevTick : ℚ
  haveTick : Bool
  haveEvent : Bool
  sqevt : SeqEvent
  running : Bool
  timerOn : Bool
  deriving DecidableEq

/-- The registered event callback, as seen by the tick handler: it receives the
delivered event and may reentrantly mutate the player state. -/
abbrev Cb := FmidiEvent → PlayerState → PlayerState

/-- The registered finish callback: it may reentrantly mutate the player state. -/
abbrev FiniCb := PlayerState → PlayerState

/-- Modelled from the spec: the Event Sequence collaborator's peek operation
(`fmidi_seq_peek_event`): yield the event at the cursor without advancing. -/
def fmidi_seq_peek_event (st : PlayerState) : Option SeqEvent :=
  st.events[st.cursor]?

/-- Modelled from the spec: the Event Sequence collaborator's read-next
operation (`fmidi_seq_next_event` with a non-null out parameter): if an event
remains, write it into the look-ahead slot, advance the cursor, and report
success. -/
def fmidi_seq_next_event (st : PlayerState) : Bool × PlayerState :=
  match st.events[st.cursor]? with
  | some e => (true, { st with sqevt := e, cursor := st.cursor + 1 })
  | none => (false, st)

/-- Modelled from the spec: `fmidi_seq_next_event` called with a null out
parameter (as in `fmidi_player_goto_time`): advance the cursor without
touching the look-ahead slot. -/
def fmidi_seq_next_event_null (st : PlayerState) : Bool × PlayerState :=
  match st.events[st.cursor]? with
  | some _ => (true, { st with cursor := st.cursor + 1 })
  | none => (false, st)

/-- Modelled from the spec: the Event Sequence collaborator's rewind
(`fmidi_seq_rewind`): reset the cursor to the start. -/
def fmidi_seq_rewind (st : PlayerState) : PlayerState :=
  { st with cursor := 0 }

/-- Apply the optional event callback (`if (cbfn) cbfn(&event, cbdata)`). -/
def applyCb (cb : Option Cb) (e : FmidiEvent) (s : PlayerState) : PlayerState :=
  match cb with
  | some f => f e s
  | none => s

/-- Apply the optional finish callback (`if (ctx.finifn) ctx.finifn(...)`). -/
def applyFini (fini : Option FiniCb) (s : PlayerState) : PlayerState :=
  match fini with
  | some f => f s
  | none => s

/-- The inner `while (more && timepos > sqevt.time)` drain loop of
`fmidi_player_tick`.  `timepos` is the local variable of the tick handler
(cached, never re-read from the context); the look-ahead slot and cursor are
read from the mutable state each iteration.  `fuel` bounds the iteration count
(the C loop can run forever when a reentrant callback keeps rewinding the
sequence); with fuel exhausted the loop exits as if the condition failed.
Returns the state, the local `more`/`have_event` flag, and the list of events
passed to the callback. -/
def drainLoop (cb : Option Cb) (timepos : ℚ) :
    Nat → Bool → PlayerState → PlayerState × Bool × List FmidiEvent
  | 0, more, st => (st, more, [])
  | fuel + 1, more, st =>
    if more = true ∧ timepos > st.sqevt.time then
      let ev := st.sqevt.event
      let st1 := applyCb cb ev st
      let next := fmidi_seq_next_event st1
      let rest := drainLoop cb timepos fuel next.1 next.2
      (rest.1, rest.2.1, (if cb.isSome then [ev] else []) ++ rest.2.2)
    else (st, more, [])

/-- The timepos advancement at the top of `fmidi_player_tick`:
`if (ctx.have_tick) timepos += ctx.speed * (now - ctx.prev_tick)`. -/
def advancedTimepos (st : PlayerState) (now : ℚ) : ℚ :=
  if st.haveTick then st.timepos + st.speed * (now - st.prevTick) else st.timepos

/-- Result of one tick: the player state, the events delivered to the event
callback, and whether the terminal (sequence-exhausted) branch was taken. -/
structure TickResult where
  st : PlayerState
  trace : List FmidiEvent
  finished : Bool
  deriving DecidableEq

/-- One firing of the timer callback `fmidi_player_tick`.  Mirrors the source:
cache `timepos`/`have_event` in locals, advance `timepos` from the previous
tick baseline, load the look-ahead slot if empty, run the drain loop, write the
locals back into the context, and on exhaustion stop the timer, clear the
running flag and invoke the finish callback. -/
def fmidi_player_tick (cb : Option Cb) (fini : Option FiniCb) (now : ℚ)
    (fuel : Nat) (st : PlayerState) : TickResult :=
  let timepos := advancedTimepos st now
  let load := if st.haveEvent then (true, st) else fmidi_seq_next_event st
  let d := drainLoop cb timepos fuel load.1 load.2
  let st2 := { d.1 with
    haveEvent := d.2.1, haveTick := true, prevTick := now, timepos := timepos }
  if d.2.1 then
    { st := st2, trace := d.2.2, finished := false }
  else
    { st := applyFini fini { st2 with timerOn := false, running := false },
      trace := d.2.2, finished := true }

/-- `fmidi_player_new`: fresh player bound to a parsed sequence; stopped, at
time zero, speed 1, no tick baseline, no pending look-ahead event. -/
def fmidi_player_new (events : List SeqEvent) : PlayerState :=
  { events := events, cursor := 0, timepos := 0, speed := 1, prevTick := 0,
    haveTick := false, haveEvent := false,
    sqevt := ⟨0, ⟨FmidiEventType.message, 0, 0, []⟩⟩,
    running := false, timerOn := false }

/-- `fmidi_player_start`: no-op when running; otherwise clear the tick
baseline, register the timer and mark running. -/
def fmidi_player_start (st : PlayerState) : PlayerState :=
  if st.running then st
  else { st with haveTick := false, timerOn := true, running := true }

/-- `fmidi_player_stop`: no-op when stopped; otherwise clear the tick
baseline, deregister the timer and mark stopped. -/
def fmidi_player_stop (st : PlayerState) : PlayerState :=
  if st.running = false then st
  else { st with haveTick := false, timerOn := false, running := false }

/-- `fmidi_player_rewind`: rewind the sequence cursor, reset `timepos` to 0,
clear the tick baseline and the pending look-ahead event. -/
def fmidi_player_rewind (st : PlayerState) : PlayerState :=
  { fmidi_seq_rewind st with timepos := 0, haveTick := false, haveEvent := false }

/-- `fmidi_player_running`. -/
def fmidi_player_running (st : PlayerState) : Bool :=
  st.running

/-- `fmidi_player_current_time`. -/
def fmidi_player_current_time (st : PlayerState) : ℚ :=
  st.timepos

/-- The snapshot-recording step in the scan loop of `fmidi_player_goto_time`:
for a channel message, `status >> 4 == 0b1100` with datalen 2 records a
program change into `programs[status & 0xf]`, and `status >> 4 == 0b1011` with
datalen 3 records a control change into `controls[channel * 128 + id]`; data
bytes are masked with `& 127`.  The snapshot arrays `uint8_t programs[16]` /
`uint8_t controls[16*128]` are modelled as total maps from index to byte. -/
def gotoSnapUpdate (pc : (Nat → Nat) × (Nat → Nat)) (evt : FmidiEvent) :
    (Nat → Nat) × (Nat → Nat) :=
  if evt.type = FmidiEventType.message then
    let status := evt.data.getD 0 0
    if status >>> 4 = 12 ∧ evt.datalen = 2 then
      (fun ch => if ch = (status &&& 15) then (evt.data.getD 1 0) &&& 127
                 else pc.1 ch,
       pc.2)
    else if status >>> 4 = 11 ∧ evt.datalen = 3 then
      (pc.1,
       fun i => if i = (status &&& 15) * 128 + ((evt.data.getD 1 0) &&& 127)
                then (evt.data.getD 2 0) &&& 127 else pc.2 i)
    else pc
  else pc

/-- The scan loop of `fmidi_player_goto_time`: peek events while their
timestamp is before the target, record channel messages into the snapshot,
and advance past them.  The loop advances the cursor each iteration, so fuel
`events.length` suffices. -/
def gotoScan (time : ℚ) :
    Nat → PlayerState → (Nat → Nat) → (Nat → Nat) →
      PlayerState × ((Nat → Nat) × (Nat → Nat))
  | 0, st, programs, controls => (st, programs, controls)
  | fuel + 1, st, programs, controls =>
    match fmidi_seq_peek_event st with
    | none => (st, programs, controls)
    | some sqevt =>
      if sqevt.time < time then
        let pc := gotoSnapUpdate (programs, controls) sqevt.event
        gotoScan time fuel (fmidi_seq_next_event_null st).2 pc.1 pc.2
      else (st, programs, controls)

/-- The per-channel part of the synthesized reset block of
`fmidi_player_goto_time`: all sound off (controller 120), reset all
controllers (controller 121), the snapshot's program change, then one control
change for each controller id whose snapshot value is set (< 128), in
ascending id order. -/
def synthChannel (programs controls : Nat → Nat) (c : Nat) : List FmidiEvent :=
  ⟨FmidiEventType.message, 0, 3, [(11 <<< 4) ||| c, 120, 0]⟩ ::
  ⟨FmidiEventType.message, 0, 3, [(11 <<< 4) ||| c, 121, 0]⟩ ::
  ⟨FmidiEventType.message, 0, 2, [(12 <<< 4) ||| c, programs c]⟩ ::
  (List.range 128).foldl
    (fun acc id =>
      if controls (c * 128 + id) < 128 then
        acc ++ [⟨FmidiEventType.message, 0, 3,
                 [(11 <<< 4) ||| c, id, controls (c * 128 + id)]⟩]
      else acc)
    []

/-- The synthesized reset block delivered at the end of
`fmidi_player_goto_time`, over channels 0–15 in ascending order. -/
def synthResetEvents (programs controls : Nat → Nat) : List FmidiEvent :=
  (List.range 16).foldl (fun acc c => acc ++ synthChannel programs controls c) []

/-- `fmidi_player_goto_time`: rewind (sequence cursor, timepos, baseline,
look-ahead), scan events before the target into the channel-state snapshot
(programs all 0, controls all 255 = unset), set `timepos` to the target, and,
if an event callback is registered, deliver the synthesized reset block.
Returns the state and the list of events delivered to the callback. -/
def fmidi_player_goto_time (cbRegistered : Bool) (time : ℚ) (st : PlayerState) :
    PlayerState × List FmidiEvent :=
  let st1 := fmidi_player_rewind st
  let s := gotoScan time st1.events.length st1 (fun _ => 0) (fun _ => 255)
  let st2 := { s.1 with timepos := time }
  if cbRegistered then (st2, synthResetEvents s.2.1 s.2.2) else (st2, [])

/-- Modelled from the spec: the host event loop fires the registered timer
callback once per scheduled instant while (and only while) the timer is
registered.  Returns the final state, the concatenated event-callback trace,
and the number of finish-callback invocations. -/
def runTicks (cb : Option Cb) (fini : Option FiniCb) (fuel : Nat) :
    List ℚ → PlayerState → PlayerState × List FmidiEvent × Nat
  | [], st => (st, [], 0)
  | now :: rest, st =>
    if st.timerOn then
      let r := fmidi_player_tick cb fini now fuel st
      let k := runTicks cb fini fuel rest r.st
      (k.1, r.trace ++ k.2.1,
       (if r.finished ∧ fini.isSome then 1 else 0) + k.2.2)
    else runTicks cb fini fuel rest st

/-- The events not yet delivered: the look-ahead slot content (when loaded)
followed by the not-yet-read tail of the sequence. -/
def pendingEvents (st : PlayerState) : List SeqEvent :=
  (if st.haveEvent then [st.sqevt] else []) ++ st.events.drop st.cursor

/-- The sequence's timestamps are non-decreasing in cursor order. -/
def timesSorted (l : List SeqEvent) : Prop :=
  l.Pairwise (fun a b => a.time ≤ b.time)

instance : DecidablePred timesSorted := fun l =>
  show Decidable (l.Pairwise (fun a b => a.time ≤ b.time)) from inferInstance

/-- The event callback does not mutate the player state (a plain observer). -/
def cbPure (cb : Option Cb) : Prop :=
  ∀ (e : FmidiEvent) (s : PlayerState), applyCb cb e s = s

/-- The finish callback does not mutate the player state. -/
def finiPure (fini : Option FiniCb) : Prop :=
  ∀ s : PlayerState, applyFini fini s = s

/-- An event is due when its timestamp is strictly before the (advanced)
playback position. -/
def due (T : ℚ) (e : SeqEvent) : Bool :=
  decide (e.time < T)

/-- Specification of one run of the drain loop started with `more = true`:
the delivered events are the due prefix of the loaded pending list (look-ahead
slot followed by the unread tail), the remaining pending list is the rest, all
context fields other than the cursor and look-ahead slot are untouched, and on
exhaustion the cursor is at the end. -/
def DrainOK (T : ℚ) (cbSome : Bool) (st : PlayerState)
    (r : PlayerState × Bool × List FmidiEvent) : Prop :=
  r.2.2 = (if cbSome then
      ((st.sqevt :: st.events.drop st.cursor).takeWhile (due T)).map SeqEvent.event
    else []) ∧
  (if r.2.1 then r.1.sqevt :: r.1.events.drop r.1.cursor else []) =
    (st.sqevt :: st.events.drop st.cursor).dropWhile (due T) ∧
  r.1.events = st.events ∧ r.1.timepos = st.timepos ∧ r.1.speed = st.speed ∧
  r.1.prevTick = st.prevTick ∧ r.1.haveTick = st.haveTick ∧
  r.1.haveEvent = st.haveEvent ∧ r.1.running = st.running ∧
  r.1.timerOn = st.timerOn ∧
  (r.2.1 = false → r.1.events.drop r.1.cursor = [])

/-- Specification of one whole tick with observer callbacks: the trace is the
due prefix of the pending events, the new pending list is the rest, the clock
fields are written back, the sequence and speed are untouched, the look-ahead
flag reflects whether an event remains, and the terminal branch fires exactly
when nothing remains pending, and only then clears running/timer. -/
def TickOK (cbSome : Bool) (now : ℚ) (st : PlayerState) (r : TickResult) : Prop :=
  r.trace = (if cbSome then
      ((pendingEvents st).takeWhile (due (advancedTimepos st now))).map SeqEvent.event
    else []) ∧
  pendingEvents r.st = (pendingEvents st).dropWhile (due (advancedTimepos st now)) ∧
  r.st.timepos = advancedTimepos st now ∧ r.st.prevTick = now ∧
  r.st.haveTick = true ∧ r.st.events = st.events ∧ r.st.speed = st.speed ∧
  (r.st.haveEvent = true ↔
    (pendingEvents st).dropWhile (due (advancedTimepos st now)) ≠ []) ∧
  (r.finished = true ↔
    (pendingEvents st).dropWhile (due (advancedTimepos st now)) = []) ∧
  (r.finished = false → r.st.running = st.running ∧ r.st.timerOn = st.timerOn) ∧
  (r.finished = true → r.st.running = false ∧ r.st.timerOn = false)

/-- Two player states that agree observably: same sequence contents and
position, same clock and flags; the previous-tick timestamp and the look-ahead
slot content only need to agree when they are live (baseline exists / event
pending). -/
def StEquiv (a b : PlayerState) : Prop :=
  a.events = b.events ∧ a.events.drop a.cursor = b.events.drop b.cursor ∧
  a.timepos = b.timepos ∧ a.speed = b.speed ∧ a.haveTick = b.haveTick ∧
  a.haveEvent = b.haveEvent ∧ a.running = b.running ∧ a.timerOn = b.timerOn ∧
  (a.haveTick = true → a.prevTick = b.prevTick) ∧
  (a.haveEvent = true → a.sqevt = b.sqevt)

/-- Channel-state snapshot update, following the spec's words: a channel
message whose status nibble is `1100` (program change) records its data byte,
masked to 7 bits, as the program of the channel in the status byte's low
nibble; status nibble `1011` (control change) records its second data byte,
masked to 7 bits, into that channel's slot for the controller id in the first
data byte; a later event overwrites an earlier one (last-writer-wins, realised
by folding this update left-to-right over the scanned prefix). -/
def specSnapUpdate (pc : (Nat → Nat) × (Nat → Nat)) (se : SeqEvent) :
    (Nat → Nat) × (Nat → Nat) :=
  if se.event.type = FmidiEventType.message then
    let status := se.event.data.getD 0 0
    if status / 16 = 12 ∧ se.event.datalen = 2 then
      (fun ch => if ch = status % 16 then (se.event.data.getD 1 0) % 128
                 else pc.1 ch,
       pc.2)
    else if status / 16 = 11 ∧ se.event.datalen = 3 then
      (pc.1,
       fun i => if i = (status % 16) * 128 + (se.event.data.getD 1 0) % 128
                then (se.event.data.getD 2 0) % 128 else pc.2 i)
    else pc
  else pc

/-- The synthesized reset block, following the spec's words: for each channel
`c` in ascending order 0–15, an all-sound-off control change (controller 120,
value 0), a reset-all-controllers control change (controller 121, value 0), a
program change carrying the snapshot's program for `c`, then one control
change per controller id 0–127 whose snapshot value is set (not the unset
sentinel), in ascending id order; every synthesized event is a channel message
with delta 0, control changes with status byte `176 + c` and program changes
with status byte `192 + c`. -/
def specResetBlock (programs controls : Nat → Nat) : List FmidiEvent :=
  (List.range 16).flatMap fun c =>
    ⟨FmidiEventType.message, 0, 3, [176 + c, 120, 0]⟩ ::
    ⟨FmidiEventType.message, 0, 3, [176 + c, 121, 0]⟩ ::
    ⟨FmidiEventType.message, 0, 2, [192 + c, programs c]⟩ ::
    ((List.range 128).filter (fun id => controls (c * 128 + id) < 128)).map
      (fun id => ⟨FmidiEventType.message, 0, 3, [176 + c, id, controls (c * 128 + id)]⟩)

/-- A concrete note-on event on channel 0 (key 60). -/
def evA : FmidiEvent := ⟨FmidiEventType.message, 0, 3, [144, 60, 100]⟩

/-- A concrete note-on event on channel 0 (key 62). -/
def evB : FmidiEvent := ⟨FmidiEventType.message, 0, 3, [144, 62, 100]⟩

/-- A concrete note-on event on channel 0 (key 64). -/
def evC : FmidiEvent := ⟨FmidiEventType.message, 0, 3, [144, 64, 100]⟩

/-- A junk value for the uninitialised look-ahead slot. -/
def dummySq : SeqEvent := ⟨0, ⟨FmidiEventType.message, 0, 0, []⟩⟩

/-- A concrete running player: three events at times 1, 2 and 9, `timepos` 3,
no previous-tick baseline yet (first tick after a start), nothing pending in
the look-ahead slot. -/
def stC2 : PlayerState :=
  { events := [⟨1, evA⟩, ⟨2, evB⟩, ⟨9, evC⟩], cursor := 0, timepos := 3,
    speed := 1, prevTick := 4, haveTick := false, haveEvent := false,
    sqevt := dummySq, running := true, timerOn := true }

/-- A reentrant event callback that calls `fmidi_player_rewind` on the player
the first time it runs in a tick (it keys on `timepos`, which the rewind
resets to 0 and which the tick handler only writes back after the drain). -/
def cbRewindOnce : Cb := fun _ s =>
  if s.timepos = 0 then s else fmidi_player_rewind s

/-- A reentrant event callback that calls `fmidi_player_stop` on the player
the first time it runs in a tick. -/
def cbStopOnce : Cb := fun _ s =>
  if s.running then fmidi_player_stop s else s

/-- An observer event callback: delivers events without touching the player. -/
def obsCb : Option Cb := some (fun _ s => s)

/-- An observer finish callback. -/
def obsFini : Option FiniCb := some (fun s => s)

/-- A finish callback that restarts the player, but only if it observes the
player already stopped (not running, timer deregistered) at notification
time. -/
def restartFini : Option FiniCb := some (fun s =>
  if fmidi_player_running s = false ∧ s.timerOn = false then fmidi_player_start s
  else s)

/-- A concrete player whose sequence is exhausted: one event, cursor already
past it, nothing pending. -/
def stExh : PlayerState :=
  { events := [⟨1, evA⟩], cursor := 1, timepos := 5, speed := 1, prevTick := 0,
    haveTick := false, haveEvent := false, sqevt := dummySq,
    running := true, timerOn := true }

/-- A concrete running player at `timepos` 50 (no baseline yet) whose two
events at times 1 and 2 are both due. -/
def stC3w : PlayerState :=
  { events := [⟨1, evA⟩, ⟨2, evB⟩], cursor := 0, timepos := 50, speed := 1,
    prevTick := 0, haveTick := false, haveEvent := false, sqevt := dummySq,
    running := true, timerOn := true }

/-- A concrete stopped player with a program change (channel 0, program 5) at
time 1, a control change (channel 0, controller 7, value 64) at time 2, and a
note-on at time 4. -/
def stG : PlayerState :=
  { events := [⟨1, ⟨FmidiEventType.message, 0, 2, [192, 5]⟩⟩,
               ⟨2, ⟨FmidiEventType.message, 0, 3, [176, 7, 64]⟩⟩,
               ⟨4, evC⟩],
    cursor := 0, timepos := 0, speed := 1, prevTick := 0, haveTick := false,
    haveEvent := false, sqevt := dummySq, running := false, timerOn := false }

lemma drainLoop_more_false (cb : Option Cb) (T : ℚ) (fuel : Nat) (st : PlayerState) :
    drainLoop cb T fuel false st = (st, false, []) := by
  cases fuel <;> simp [drainLoop]

lemma due_true {T : ℚ} {e : SeqEvent} (h : T > e.time) : due T e = true := by
  simpa [due] using h

lemma due_false {T : ℚ} {e : SeqEvent} (h : ¬ T > e.time) : due T e = false := by
  simpa [due] using h

lemma drainLoop_pure (cb : Option Cb) (hcb : cbPure cb) (T : ℚ) :
    ∀ (fuel : Nat) (st : PlayerState), st.events.length - st.cursor < fuel →
      DrainOK T cb.isSome st (drainLoop cb T fuel true st) := by
  have hcb' : ∀ (e : FmidiEvent) (s : PlayerState), applyCb cb e s = s := hcb
  intro fuel
  induction fuel with
  | zero => intro st h; omega
  | succ n ih =>
    intro st h
    by_cases hdue : T > st.sqevt.time
    · rcases hget : st.events[st.cursor]? with _ | e
      · -- the sequence is exhausted: the delivered event was the last one
        have hlen : st.events.length ≤ st.cursor := by
          by_contra hlt
          push_neg at hlt
          rw [st.events.getElem?_eq_getElem hlt] at hget
          cases hget
        have hdrop : st.events.drop st.cursor = [] := List.drop_eq_nil_of_le hlen
        have hfin : drainLoop cb T (n + 1) true st =
            (st, false, if cb.isSome = true then [st.sqevt.event] else []) := by
          simp [drainLoop, hcb', fmidi_seq_next_event, hget, hdue, drainLoop_more_false]
        rw [hfin]
        unfold DrainOK
        refine ⟨?_, ?_, rfl, rfl, rfl, rfl, rfl, rfl, rfl, rfl, fun _ => hdrop⟩
        · cases cb <;> simp [hdrop, due_true hdue]
        · simp [hdrop, due_true hdue]
      · -- an event remains: load it and keep draining
        have hlt : st.cursor < st.events.length :=
          (List.getElem?_eq_some.mp hget).1
        have hgetEq : st.events[st.cursor] = e :=
          (List.getElem?_eq_some.mp hget).2
        have hdrop : st.events.drop st.cursor = e :: st.events.drop (st.cursor + 1) := by
          rw [List.drop_eq_getElem_cons hlt, hgetEq]
        have hstep : drainLoop cb T (n + 1) true st =
            ((drainLoop cb T n true { st with sqevt := e, cursor := st.cursor + 1 }).1,
             (drainLoop cb T n true { st with sqevt := e, cursor := st.cursor + 1 }).2.1,
             (if cb.isSome = true then [st.sqevt.event] else []) ++
               (drainLoop cb T n true { st with sqevt := e, cursor := st.cursor + 1 }).2.2) := by
          simp [drainLoop, hcb', fmidi_seq_next_event, hget, hdue]
        have hih := ih { st with sqevt := e, cursor := st.cursor + 1 } (by simp; omega)
        rw [hstep]
        obtain ⟨h1, h2, h3, h4, h5, h6, h7, h8, h9, h10, h11⟩ := hih
        unfold DrainOK
        refine ⟨?_, ?_, h3, h4, h5, h6, h7, h8, h9, h10, h11⟩
        · rw [hdrop, List.takeWhile_cons_of_pos (due_true hdue)]
          cases cb
          · simpa using h1
          · simpa using h1
        · rw [hdrop, List.dropWhile_cons_of_pos (due_true hdue)]
          exact h2
    · -- the head of the pending list is not due: the loop exits at once
      have hstop : drainLoop cb T (n + 1) true st = (st, true, []) := by
        simp [drainLoop, hdue]
      rw [hstop]
      unfold DrainOK
      refine ⟨?_, ?_, rfl, rfl, rfl, rfl, rfl, rfl, rfl, rfl, by simp⟩
      · cases cb <;> simp [due_false hdue]
      · simp [due_false hdue]

lemma tick_pure_loaded (cb : Option Cb) (fini : Option FiniCb) (hcb : cbPure cb)
    (hfini' : ∀ s, applyFini fini s = s) (st st0 : PlayerState) (now : ℚ) (fuel : Nat)
    (hfuel : st0.events.length - st0.cursor < fuel)
    (hload : (if st.haveEvent = true then ((true : Bool), st)
              else fmidi_seq_next_event st) = (true, st0))
    (hpend : pendingEvents st = st0.sqevt :: st0.events.drop st0.cursor)
    (hev : st0.events = st.events) (htp : st0.timepos = st.timepos)
    (hsp : st0.speed = st.speed) (hpt : st0.prevTick = st.prevTick)
    (hht : st0.haveTick = st.haveTick) (hr : st0.running = st.running)
    (hto : st0.timerOn = st.timerOn) :
    TickOK cb.isSome now st (fmidi_player_tick cb fini now fuel st) := by
  obtain ⟨h1, h2, h3, h4, h5, h6, h7, h8, h9, h10, h11⟩ :=
    drainLoop_pure cb hcb (advancedTimepos st now) fuel st0 hfuel
  rcases hmore : (drainLoop cb (advancedTimepos st now) fuel true st0).2.1 with _ | _
  · -- the loop ended by exhaustion: terminal branch
    rw [hmore] at h2 h11
    simp only [if_false, Bool.false_eq_true] at h2
    have hdw : (pendingEvents st).dropWhile (due (advancedTimepos st now)) = [] := by
      rw [hpend]; exact h2.symm
    have htick : fmidi_player_tick cb fini now fuel st =
        { st := { (drainLoop cb (advancedTimepos st now) fuel true st0).1 with
                  haveEvent := false, haveTick := true, prevTick := now,
                  timepos := advancedTimepos st now, timerOn := false, running := false },
          trace := (drainLoop cb (advancedTimepos st now) fuel true st0).2.2,
          finished := true } := by
      simp only [fmidi_player_tick, hload, hmore, hfini']
      simp
    rw [htick]
    unfold TickOK
    refine ⟨?_, ?_, rfl, rfl, rfl, ?_, ?_, ?_, ?_, ?_, ?_⟩
    · rw [h1, hpend]
    · rw [hdw]
      simp [pendingEvents, h11 rfl]
    · rw [h3, hev]
    · rw [h5, hsp]
    · simp [hdw]
    · simp [hdw]
    · intro hc; cases hc
    · intro _; exact ⟨rfl, rfl⟩
  · -- an event remains pending: non-terminal branch
    rw [hmore] at h2
    simp only [if_true] at h2
    have htick : fmidi_player_tick cb fini now fuel st =
        { st := { (drainLoop cb (advancedTimepos st now) fuel true st0).1 with
                  haveEvent := true, haveTick := true, prevTick := now,
                  timepos := advancedTimepos st now },
          trace := (drainLoop cb (advancedTimepos st now) fuel true st0).2.2,
          finished := false } := by
      simp only [fmidi_player_tick, hload, hmore]
      simp
    rw [htick]
    unfold TickOK
    have hdw : (pendingEvents st).dropWhile (due (advancedTimepos st now)) =
        (drainLoop cb (advancedTimepos st now) fuel true st0).1.sqevt ::
          ((drainLoop cb (advancedTimepos st now) fuel true st0).1.events.drop
            (drainLoop cb (advancedTimepos st now) fuel true st0).1.cursor) := by
      rw [hpend]; exact h2.symm
    refine ⟨?_, ?_, rfl, rfl, rfl, ?_, ?_, ?_, ?_, ?_, ?_⟩
    · rw [h1, hpend]
    · rw [hdw]
      simp [pendingEvents]
    · rw [h3, hev]
    · rw [h5, hsp]
    · simp [hdw]
    · simp [hdw]
    · intro _
      constructor
      · rw [h9, hr]
      · rw [h10, hto]
    · intro hc; cases hc

lemma tick_pure (cb : Option Cb) (fini : Option FiniCb) (hcb : cbPure cb)
    (hfini : finiPure fini) (st : PlayerState) (now : ℚ) (fuel : Nat)
    (hfuel : st.events.length < fuel) :
    TickOK cb.isSome now st (fmidi_player_tick cb fini now fuel st) := by
  have hfini' : ∀ s, applyFini fini s = s := hfini
  rcases hhe : st.haveEvent with _ | _
  · rcases hget : st.events[st.cursor]? with _ | e
    · -- nothing pending and sequence exhausted: immediate terminal tick
      have hlen : st.events.length ≤ st.cursor := by
        by_contra hlt
        push_neg at hlt
        rw [st.events.getElem?_eq_getElem hlt] at hget
        cases hget
      have hdrop : st.events.drop st.cursor = [] := List.drop_eq_nil_of_le hlen
      have hpend : pendingEvents st = [] := by simp [pendingEvents, hhe, hdrop]
      have htick : fmidi_player_tick cb fini now fuel st =
          { st :=
              { st with haveEvent := false, haveTick := true, prevTick := now,
                        timepos := advancedTimepos st now, timerOn := false,
                        running := false },
            trace := [], finished := true } := by
        simp only [fmidi_player_tick, hhe, fmidi_seq_next_event, hget]
        simp [drainLoop_more_false, hfini']
      rw [htick]
      unfold TickOK
      refine ⟨?_, ?_, rfl, rfl, rfl, rfl, rfl, ?_, ?_, ?_, ?_⟩
      · simp [hpend]
      · simp [pendingEvents, hhe, hdrop]
      · simp [hpend]
      · simp [hpend]
      · intro hc; cases hc
      · intro _; exact ⟨rfl, rfl⟩
    · -- nothing pending: load the next event, then drain
      have hlt : st.cursor < st.events.length :=
        (List.getElem?_eq_some.mp hget).1
      have hgetEq : st.events[st.cursor] = e :=
        (List.getElem?_eq_some.mp hget).2
      refine tick_pure_loaded cb fini hcb hfini' st
        { st with sqevt := e, cursor := st.cursor + 1 } now fuel
        (by simp; omega) (by simp [hhe, fmidi_seq_next_event, hget]) ?_
        rfl rfl rfl rfl rfl rfl rfl
      simp only [pendingEvents, hhe]
      simp [List.drop_eq_getElem_cons hlt, hgetEq]
  · -- an event is already pending in the look-ahead slot
    refine tick_pure_loaded cb fini hcb hfini' st st now fuel
      (by omega) (by simp [hhe]) ?_ rfl rfl rfl rfl rfl rfl rfl
    simp [pendingEvents, hhe]

lemma timesSorted_takeWhile_eq_filter (T : ℚ) :
    ∀ l : List SeqEvent, timesSorted l → l.takeWhile (due T) = l.filter (due T) := by
  intro l
  induction l with
  | nil => intro _; rfl
  | cons a l ih =>
    intro hs
    rcases List.pairwise_cons.mp hs with ⟨ha, hl⟩
    by_cases hd : due T a = true
    · rw [List.takeWhile_cons_of_pos hd, List.filter_cons_of_pos hd, ih hl]
    · rw [List.takeWhile_cons_of_neg hd, List.filter_cons_of_neg hd]
      symm
      rw [List.filter_eq_nil_iff]
      intro b hb hdb
      apply hd
      have hab : a.time ≤ b.time := ha b hb
      have hbT : b.time < T := by simpa [due] using hdb
      simp only [due, decide_eq_true_eq]
      exact lt_of_le_of_lt hab hbT

lemma timesSorted_dropWhile_not_due (T : ℚ) :
    ∀ l : List SeqEvent, timesSorted l →
      ∀ e ∈ l.dropWhile (due T), due T e = false := by
  intro l
  induction l with
  | nil => intro _ e he; cases he
  | cons a l ih =>
    intro hs
    rcases List.pairwise_cons.mp hs with ⟨ha, hl⟩
    by_cases hd : due T a = true
    · rw [List.dropWhile_cons_of_pos hd]
      exact ih hl
    · rw [List.dropWhile_cons_of_neg hd]
      intro e he
      rcases List.mem_cons.mp he with rfl | he'
      · simpa using hd
      · have hae : a.time ≤ e.time := ha e he'
        have haT : ¬ a.time < T := by simpa [due] using hd
        simp only [due, decide_eq_false_iff_not]
        intro heT
        exact haT (lt_of_le_of_lt hae heT)

lemma takeWhile_eq_take_len {α : Type} (p : α → Bool) :
    ∀ l : List α, l.takeWhile p = l.take (l.takeWhile p).length := by
  intro l
  induction l with
  | nil => rfl
  | cons a l ih =>
    by_cases hd : p a = true
    · rw [List.takeWhile_cons_of_pos hd]
      simp only [List.length_cons, List.take_succ_cons]
      rw [← ih]
    · rw [List.takeWhile_cons_of_neg hd]
      rfl

lemma dropWhile_eq_drop_len {α : Type} (p : α → Bool) (l : List α) :
    l.dropWhile p = l.drop (l.takeWhile p).length := by
  have h := List.takeWhile_append_dropWhile p l
  calc l.dropWhile p
      = (l.takeWhile p ++ l.dropWhile p).drop (l.takeWhile p).length := by
        rw [List.drop_left]
    _ = l.drop (l.takeWhile p).length := by rw [h]

lemma runTicks_timer_off (cb : Option Cb) (fini : Option FiniCb) (fuel : Nat) :
    ∀ (nows : List ℚ) (st : PlayerState), st.timerOn = false →
      runTicks cb fini fuel nows st = (st, [], 0) := by
  intro nows
  induction nows with
  | nil => intro st _; rfl
  | cons now rest ih =>
    intro st h
    simp [runTicks, h, ih st h]

lemma runTicks_prefix (cb : Option Cb) (fini : Option FiniCb) (hcb : cbPure cb)
    (hfini : finiPure fini) (hsome : cb.isSome = true) (fuel : Nat) :
    ∀ (nows : List ℚ) (st : PlayerState), st.events.length < fuel →
      ∃ k, (runTicks cb fini fuel nows st).2.1 =
        ((pendingEvents st).map SeqEvent.event).take k := by
  intro nows
  induction nows with
  | nil => intro st _; exact ⟨0, by simp [runTicks]⟩
  | cons now rest ih =>
    intro st h
    by_cases ht : st.timerOn = true
    · obtain ⟨t1, t2, t3, t4, t5, t6, t7, t8, t9, t10, t11⟩ :=
        tick_pure cb fini hcb hfini st now fuel h
      obtain ⟨k, hk⟩ := ih (fmidi_player_tick cb fini now fuel st).st
        (by rw [t6]; exact h)
      refine ⟨((pendingEvents st).takeWhile (due (advancedTimepos st now))).length + k, ?_⟩
      have hrun : (runTicks cb fini fuel (now :: rest) st).2.1 =
          (fmidi_player_tick cb fini now fuel st).trace ++
            (runTicks cb fini fuel rest (fmidi_player_tick cb fini now fuel st).st).2.1 := by
        simp [runTicks, ht]
      rw [hrun, hk, t1, if_pos hsome, t2]
      rw [dropWhile_eq_drop_len]
      rw [List.map_drop, List.take_add]
      congr 1
      · conv_lhs => rw [takeWhile_eq_take_len (due (advancedTimepos st now))]
        rw [List.map_take]
    · have ht' : st.timerOn = false := by simpa using ht
      obtain ⟨k, hk⟩ := ih st h
      refine ⟨k, ?_⟩
      have : runTicks cb fini fuel (now :: rest) st = runTicks cb fini fuel rest st := by
        simp [runTicks, ht']
      rw [this, hk]

lemma tick_writeback (cb : Option Cb) (st : PlayerState) (now : ℚ) (fuel : Nat) :
    (fmidi_player_tick cb none now fuel st).st.timepos = advancedTimepos st now ∧
    (fmidi_player_tick cb none now fuel st).st.prevTick = now ∧
    (fmidi_player_tick cb none now fuel st).st.haveTick = true := by
  simp only [fmidi_player_tick]
  split <;> split <;> simp [applyFini]

/-- C1: on every tick, after advancing `timepos`, the player delivers via the
registered event callback, in sequence order, exactly those pending events
whose timestamp is strictly less than the advanced `timepos` (an event with
timestamp equal to it stays pending); all due events, including ones sharing a
timestamp, are drained within the single tick; with no callback registered the
trace is empty but the events are still consumed and time still advances; and
over any run of ticks the delivered events form a prefix of the pending
events, in order, never reordered, duplicated or skipped. -/
theorem claim_C1 (cb : Option Cb) (st : PlayerState) (now : ℚ) (fuel : Nat)
    (hcb : cbPure cb) (hfuel : st.events.length < fuel)
    (hsorted : timesSorted (pendingEvents st)) :
    (fmidi_player_tick cb none now fuel st).trace =
      (if cb.isSome = true then
        ((pendingEvents st).filter (due (advancedTimepos st now))).map SeqEvent.event
       else []) ∧
    pendingEvents (fmidi_player_tick cb none now fuel st).st =
      (pendingEvents st).dropWhile (due (advancedTimepos st now)) ∧
    ((pendingEvents (fmidi_player_tick cb none now fuel st).st).all
      (fun e => !(due (advancedTimepos st now) e))) = true ∧
    (fmidi_player_tick cb none now fuel st).st.timepos = advancedTimepos st now ∧
    (cb.isSome = true → ∀ nows : List ℚ, ∃ k,
      (runTicks cb none fuel nows st).2.1 =
        ((pendingEvents st).map SeqEvent.event).take k) := by
  have hfini : finiPure (none : Option FiniCb) := fun s => rfl
  obtain ⟨t1, t2, t3, t4, t5, t6, t7, t8, t9, t10, t11⟩ :=
    tick_pure cb none hcb hfini st now fuel hfuel
  refine ⟨?_, t2, ?_, t3, ?_⟩
  · rw [t1, timesSorted_takeWhile_eq_filter _ _ hsorted]
  · rw [t2, List.all_eq_true]
    intro e he
    simp [timesSorted_dropWhile_not_due _ _ hsorted e he]
  · intro hsome nows
    exact runTicks_prefix cb none hcb hfini hsome fuel nows st hfuel

/-- C1 witness: at a concrete player with three sorted pending events and an
observer callback, the hypotheses hold and the trace of one tick is exactly
the due prefix. -/
theorem claim_C1_witness :
    cbPure obsCb ∧ stC2.events.length < 10 ∧ timesSorted (pendingEvents stC2) ∧
    (fmidi_player_tick obsCb none 5 10 stC2).trace =
      ((pendingEvents stC2).filter (due (advancedTimepos stC2 5))).map
        SeqEvent.event := by
  refine ⟨fun e s => rfl, by decide, by decide, ?_⟩
  have h := claim_C1 obsCb stC2 5 10 (fun e s => rfl) (by decide) (by decide)
  rw [h.1]
  rfl

/-- C2: counterexample to the claim that a callback-triggered `rewind()` is
observed via re-read state for the rest of the tick and persists after it.  At
a concrete tick whose callback rewinds the player upon the first delivered
event, the drain keeps running (the local `timepos` and `more` are cached, so
event A is even delivered a second time after the cursor rewind), and after
the tick `timepos` is 3 — the cached advanced value written back over the
rewind's 0 — and the look-ahead slot is still marked occupied. -/
theorem claim_C2_counterexample :
    (fmidi_player_tick (some cbRewindOnce) none 5 10 stC2).trace =
      [evA, evA, evB] ∧
    (fmidi_player_tick (some cbRewindOnce) none 5 10 stC2).st.timepos = 3 ∧
    ¬ (fmidi_player_tick (some cbRewindOnce) none 5 10 stC2).st.timepos = 0 ∧
    (fmidi_player_tick (some cbRewindOnce) none 5 10 stC2).st.haveEvent = true := by
  decide

/-- C2 (amended): the tick handler caches `timepos` and the `have_event` flag
in locals and writes them back after the drain, for every callback — so a
callback `rewind()`'s `timepos = 0` and cleared look-ahead flag do not survive
the tick, and a callback `stop()`'s cleared tick baseline is overwritten
(`have_tick` is set unconditionally).  The drain does re-read the sequence
cursor and look-ahead slot each iteration, so a callback rewind redirects the
remaining drain to the sequence start (event A is delivered again) and a
callback stop does not end the drain (event B is still delivered), while the
stop's `running = false` and timer deregistration do persist. -/
theorem claim_C2_amended :
    (∀ (cb : Option Cb) (st : PlayerState) (now : ℚ) (fuel : Nat),
      (fmidi_player_tick cb none now fuel st).st.timepos = advancedTimepos st now ∧
      (fmidi_player_tick cb none now fuel st).st.prevTick = now ∧
      (fmidi_player_tick cb none now fuel st).st.haveTick = true) ∧
    (fmidi_player_tick (some cbRewindOnce) none 5 10 stC2).trace =
      [evA, evA, evB] ∧
    (fmidi_player_tick (some cbRewindOnce) none 5 10 stC2).st.timepos = 3 ∧
    (fmidi_player_tick (some cbStopOnce) none 5 10 stC2).trace = [evA, evB] ∧
    (fmidi_player_tick (some cbStopOnce) none 5 10 stC2).st.running = false ∧
    (fmidi_player_tick (some cbStopOnce) none 5 10 stC2).st.timerOn = false ∧
    (fmidi_player_tick (some cbStopOnce) none 5 10 stC2).st.haveTick = true := by
  exact ⟨fun cb st now fuel => tick_writeback cb st now fuel,
    by decide, by decide, by decide, by decide, by decide, by decide⟩

/-- C3: when every pending event is due (so the drain exhausts the sequence
with nothing left pending), the tick takes the terminal branch: it stops the
timer, clears the running flag, delivers all remaining events first, reports
finished (invoking the registered finish callback), and on any further
host-side schedule the player — its timer now deregistered — is never ticked
again, so the finish callback cannot fire a second time. -/
theorem claim_C3 (cb : Option Cb) (st : PlayerState) (now : ℚ) (fuel : Nat)
    (nows : List ℚ) (hcb : cbPure cb) (hfuel : st.events.length < fuel)
    (hdue : ∀ e ∈ pendingEvents st, due (advancedTimepos st now) e = true) :
    (fmidi_player_tick cb obsFini now fuel st).finished = true ∧
    (fmidi_player_tick cb obsFini now fuel st).trace =
      (if cb.isSome = true then (pendingEvents st).map SeqEvent.event else []) ∧
    (fmidi_player_tick cb obsFini now fuel st).st.running = false ∧
    (fmidi_player_tick cb obsFini now fuel st).st.timerOn = false ∧
    runTicks cb obsFini fuel nows (fmidi_player_tick cb obsFini now fuel st).st =
      ((fmidi_player_tick cb obsFini now fuel st).st, [], 0) := by
  have hfini : finiPure obsFini := fun s => rfl
  obtain ⟨t1, t2, t3, t4, t5, t6, t7, t8, t9, t10, t11⟩ :=
    tick_pure cb obsFini hcb hfini st now fuel hfuel
  have hdw : (pendingEvents st).dropWhile (due (advancedTimepos st now)) = [] :=
    List.dropWhile_eq_nil_iff.mpr hdue
  have hfin : (fmidi_player_tick cb obsFini now fuel st).finished = true :=
    t9.mpr hdw
  obtain ⟨hrun, hto⟩ := t11 hfin
  refine ⟨hfin, ?_, hrun, hto, runTicks_timer_off cb obsFini fuel nows _ hto⟩
  rw [t1, List.takeWhile_eq_self_iff.mpr hdue]

/-- C3 witness: at a concrete player whose two pending events are both due,
the hypotheses hold and the tick reports finished. -/
theorem claim_C3_witness :
    cbPure obsCb ∧ stC3w.events.length < 10 ∧
    (∀ e ∈ pendingEvents stC3w, due (advancedTimepos stC3w 51) e = true) ∧
    (fmidi_player_tick obsCb obsFini 51 10 stC3w).finished = true := by
  refine ⟨fun e s => rfl, by decide, by decide, ?_⟩
  exact (claim_C3 obsCb stC3w 51 10 [] (fun e s => rfl) (by decide) (by decide)).1

/-- C6: on a tick at real time `now`, if a previous-tick baseline exists,
`timepos` increases by exactly `speed * (now - prev_tick)`; on the first tick
since a (re)start it does not advance; in both cases `now` is recorded as the
new previous-tick timestamp and the baseline is marked as existing — for any
event callback, since the tick writes the cached clock fields back
unconditionally. -/
theorem claim_C6 (cb : Option Cb) (st : PlayerState) (now : ℚ) (fuel : Nat) :
    (fmidi_player_tick cb none now fuel st).st.timepos =
      (if st.haveTick = true then st.timepos + st.speed * (now - st.prevTick)
       else st.timepos) ∧
    (fmidi_player_tick cb none now fuel st).st.prevTick = now ∧
    (fmidi_player_tick cb none now fuel st).st.haveTick = true := by
  obtain ⟨h1, h2, h3⟩ := tick_writeback cb st now fuel
  exact ⟨by rw [h1]; rfl, h2, h3⟩

/-- C7: `start()` on a running player and `stop()` on a stopped player are
no-ops (two consecutive starts equal one start, symmetrically for stop);
`start()` on a stopped player clears the previous-tick baseline, registers the
timer and sets running, leaving `timepos` (the value `current_time` reports)
unchanged; `stop()` on a running player clears the baseline, deregisters the
timer and clears running. -/
theorem claim_C7 (st : PlayerState) :
    fmidi_player_start (fmidi_player_start st) = fmidi_player_start st ∧
    fmidi_player_stop (fmidi_player_stop st) = fmidi_player_stop st ∧
    fmidi_player_current_time (fmidi_player_start st) =
      fmidi_player_current_time st ∧
    fmidi_player_current_time (fmidi_player_stop st) =
      fmidi_player_current_time st ∧
    fmidi_player_start { st with running := false } =
      { st with haveTick := false, timerOn := true, running := true } ∧
    fmidi_player_start { st with running := true } = { st with running := true } ∧
    fmidi_player_stop { st with running := true } =
      { st with haveTick := false, timerOn := false, running := false } ∧
    fmidi_player_stop { st with running := false } = { st with running := false } := by
  cases st with
  | mk ev cur tp sp pt ht he sq r tmr =>
    cases r <;>
      simp [fmidi_player_start, fmidi_player_stop, fmidi_player_current_time]

/-- C9: in the terminal branch the timer is deregistered and the running flag
cleared strictly before the finish callback runs: an observer finish callback
leaves the player stopped with its timer off, and a finish callback that
restarts the player only when it observes `running = false` and the timer off
does restart it (running and timer set, baseline cleared) — proving it
observed both already cleared at notification time. -/
theorem claim_C9 (st : PlayerState) (now : ℚ) (fuel : Nat)
    (hne : st.haveEvent = false) (hcur : st.events.length ≤ st.cursor) :
    (fmidi_player_tick none obsFini now fuel st).finished = true ∧
    (fmidi_player_tick none obsFini now fuel st).st.running = false ∧
    (fmidi_player_tick none obsFini now fuel st).st.timerOn = false ∧
    (fmidi_player_tick none restartFini now fuel st).st.running = true ∧
    (fmidi_player_tick none restartFini now fuel st).st.timerOn = true ∧
    (fmidi_player_tick none restartFini now fuel st).st.haveTick = false := by
  have hget : st.events[st.cursor]? = none := List.getElem?_eq_none hcur
  have h1 : ∀ fini : Option FiniCb, fmidi_player_tick none fini now fuel st =
      { st :=
          applyFini fini
            { st with haveEvent := false, haveTick := true, prevTick := now,
                      timepos := advancedTimepos st now, timerOn := false,
                      running := false },
        trace := [], finished := true } := by
    intro fini
    simp only [fmidi_player_tick, hne, fmidi_seq_next_event, hget]
    simp [drainLoop_more_false]
  rw [h1 obsFini, h1 restartFini]
  simp [applyFini, obsFini, restartFini, fmidi_player_running, fmidi_player_start]

/-- C9 witness: at a concrete exhausted player the hypotheses hold, and the
restarting finish callback does restart the player. -/
theorem claim_C9_witness :
    stExh.haveEvent = false ∧ stExh.events.length ≤ stExh.cursor ∧
    (fmidi_player_tick none restartFini 7 5 stExh).st.running = true := by
  refine ⟨rfl, by decide, ?_⟩
  exact (claim_C9 stExh 7 5 rfl (by decide)).2.2.2.1

lemma land_fifteen (x : Nat) : x &&& 15 = x % 16 := by
  have h := Nat.and_pow_two_sub_one_eq_mod x 4
  norm_num at h
  exact h

lemma land_onetwoseven (x : Nat) : x &&& 127 = x % 128 := by
  have h := Nat.and_pow_two_sub_one_eq_mod x 7
  norm_num at h
  exact h

lemma shiftr_four (x : Nat) : x >>> 4 = x / 16 := by
  rw [Nat.shiftRight_eq_div_pow]

lemma gotoSnapUpdate_eq_spec (pc : (Nat → Nat) × (Nat → Nat)) (sq : SeqEvent) :
    gotoSnapUpdate pc sq.event = specSnapUpdate pc sq := by
  unfold gotoSnapUpdate specSnapUpdate
  simp only [land_fifteen, land_onetwoseven, shiftr_four]

lemma gotoScan_spec (T : ℚ) :
    ∀ (fuel : Nat) (st : PlayerState) (programs controls : Nat → Nat),
      st.events.length - st.cursor ≤ fuel →
      gotoScan T fuel st programs controls =
        ({ st with cursor := st.cursor +
            ((st.events.drop st.cursor).takeWhile (due T)).length },
         List.foldl specSnapUpdate (programs, controls)
           ((st.events.drop st.cursor).takeWhile (due T))) := by
  intro fuel
  induction fuel with
  | zero =>
    intro st programs controls h
    have hdrop : st.events.drop st.cursor = [] :=
      List.drop_eq_nil_of_le (by omega)
    simp [gotoScan, hdrop]
  | succ n ih =>
    intro st programs controls h
    rcases hget : st.events[st.cursor]? with _ | sq
    · have hdrop : st.events.drop st.cursor = [] := by
        apply List.drop_eq_nil_of_le
        by_contra hlt
        push_neg at hlt
        rw [st.events.getElem?_eq_getElem hlt] at hget
        cases hget
      simp [gotoScan, fmidi_seq_peek_event, hget, hdrop]
    · have hlt : st.cursor < st.events.length := (List.getElem?_eq_some.mp hget).1
      have hgetEq : st.events[st.cursor] = sq := (List.getElem?_eq_some.mp hget).2
      have hdrop : st.events.drop st.cursor = sq :: st.events.drop (st.cursor + 1) := by
        rw [List.drop_eq_getElem_cons hlt, hgetEq]
      by_cases hd : sq.time < T
      · have hstep : gotoScan T (n + 1) st programs controls =
            gotoScan T n { st with cursor := st.cursor + 1 }
              (gotoSnapUpdate (programs, controls) sq.event).1
              (gotoSnapUpdate (programs, controls) sq.event).2 := by
          simp [gotoScan, fmidi_seq_peek_event, hget, hd, fmidi_seq_next_event_null]
        rw [hstep, ih _ _ _ (by simp; omega)]
        rw [hdrop, List.takeWhile_cons_of_pos (by simpa [due] using hd)]
        simp only [List.foldl_cons, List.length_cons]
        rw [gotoSnapUpdate_eq_spec]
        have harith : st.cursor + 1 +
            ((st.events.drop (st.cursor + 1)).takeWhile (due T)).length =
            st.cursor +
              (((st.events.drop (st.cursor + 1)).takeWhile (due T)).length + 1) := by
          omega
        simp only [harith]
      · have hstop : gotoScan T (n + 1) st programs controls = (st, programs, controls) := by
          simp [gotoScan, fmidi_seq_peek_event, hget, hd]
        rw [hstop, hdrop, List.takeWhile_cons_of_neg (by simpa [due] using hd)]
        simp

lemma goto_time_state (cbr : Bool) (T : ℚ) (st : PlayerState) :
    (fmidi_player_goto_time cbr T st).1 =
      { st with cursor := (st.events.takeWhile (due T)).length,
                timepos := T, haveTick := false, haveEvent := false } := by
  have hscan := gotoScan_spec T st.events.length (fmidi_player_rewind st)
    (fun _ => 0) (fun _ => 255) (by simp [fmidi_player_rewind, fmidi_seq_rewind])
  have h1 : (fmidi_player_goto_time cbr T st).1 =
      { (gotoScan T st.events.length (fmidi_player_rewind st)
          (fun _ => 0) (fun _ => 255)).1 with timepos := T } := by
    cases cbr <;> simp [fmidi_player_goto_time, fmidi_player_rewind, fmidi_seq_rewind]
  rw [h1, hscan]
  simp [fmidi_player_rewind, fmidi_seq_rewind]

lemma goto_time_snapshot (T : ℚ) (st : PlayerState) :
    (gotoScan T st.events.length (fmidi_player_rewind st)
        (fun _ => 0) (fun _ => 255)).2 =
      List.foldl specSnapUpdate (fun _ => 0, fun _ => 255)
        (st.events.takeWhile (due T)) := by
  have hscan := gotoScan_spec T st.events.length (fmidi_player_rewind st)
    (fun _ => 0) (fun _ => 255) (by simp [fmidi_player_rewind, fmidi_seq_rewind])
  rw [hscan]
  simp [fmidi_player_rewind, fmidi_seq_rewind]

/-- C4: `goto_time(T)` first rewinds the sequence and playback state (cursor
to 0, baseline and look-ahead cleared), scans exactly the events whose
timestamp is strictly less than `T` — folding each into the channel-state
snapshot initialised to all programs 0 and all controls 255 (unset),
last-writer-wins — stops at the first event with timestamp ≥ `T`, leaving the
cursor there so that event is the next one normal ticking delivers, and sets
`timepos` to exactly `T`. -/
theorem claim_C4 (cbr : Bool) (st : PlayerState) (T : ℚ) :
    (fmidi_player_goto_time cbr T st).1.timepos = T ∧
    (fmidi_player_goto_time cbr T st).1.events = st.events ∧
    (fmidi_player_goto_time cbr T st).1.cursor =
      (st.events.takeWhile (due T)).length ∧
    (fmidi_player_goto_time cbr T st).1.haveEvent = false ∧
    (fmidi_player_goto_time cbr T st).1.haveTick = false ∧
    pendingEvents (fmidi_player_goto_time cbr T st).1 =
      st.events.dropWhile (due T) ∧
    (gotoScan T st.events.length (fmidi_player_rewind st)
        (fun _ => 0) (fun _ => 255)).2 =
      List.foldl specSnapUpdate (fun _ => 0, fun _ => 255)
        (st.events.takeWhile (due T)) := by
  rw [goto_time_state cbr T st]
  refine ⟨rfl, rfl, rfl, rfl, rfl, ?_, goto_time_snapshot T st⟩
  simp only [pendingEvents]
  simp [dropWhile_eq_drop_len (due T) st.events]

lemma foldl_append_eq_flatMap {α β : Type} (f : α → List β) :
    ∀ (l : List α) (acc : List β),
      l.foldl (fun a x => a ++ f x) acc = acc ++ l.flatMap f := by
  intro l
  induction l with
  | nil => intro acc; simp
  | cons a l ih =>
    intro acc
    simp only [List.foldl_cons, List.flatMap_cons, ih, List.append_assoc]

lemma foldl_filter_map {α β : Type} (p : α → Prop) [DecidablePred p] (g : α → β) :
    ∀ (l : List α) (acc : List β),
      l.foldl (fun a x => if p x then a ++ [g x] else a) acc =
        acc ++ (l.filter (fun x => decide (p x))).map g := by
  intro l
  induction l with
  | nil => intro acc; simp
  | cons a l ih =>
    intro acc
    by_cases hp : p a
    · simp [List.foldl_cons, hp, ih, List.filter_cons]
    · simp [List.foldl_cons, hp, ih, List.filter_cons]

lemma flatMap_congr_mem {α β : Type} (l : List α) (f g : α → List β)
    (h : ∀ x ∈ l, f x = g x) : l.flatMap f = l.flatMap g := by
  induction l with
  | nil => rfl
  | cons a l ih =>
    simp only [List.flatMap_cons, h a (by simp)]
    rw [ih (fun x hx => h x (by simp [hx]))]

lemma synthChannel_eq_spec (programs controls : Nat → Nat) (c : Nat) (hc : c < 16) :
    synthChannel programs controls c =
      ⟨FmidiEventType.message, 0, 3, [176 + c, 120, 0]⟩ ::
      ⟨FmidiEventType.message, 0, 3, [176 + c, 121, 0]⟩ ::
      ⟨FmidiEventType.message, 0, 2, [192 + c, programs c]⟩ ::
      ((List.range 128).filter (fun id => controls (c * 128 + id) < 128)).map
        (fun id => ⟨FmidiEventType.message, 0, 3,
                    [176 + c, id, controls (c * 128 + id)]⟩) := by
  have h1 : 176 ||| c = 176 + c :=
    (by decide : ∀ x < 16, 176 ||| x = 176 + x) c hc
  have h2 : 192 ||| c = 192 + c :=
    (by decide : ∀ x < 16, 192 ||| x = 192 + x) c hc
  unfold synthChannel
  rw [foldl_filter_map (fun id => controls (c * 128 + id) < 128)]
  simp [h1, h2]

lemma synthResetEvents_eq_spec (programs controls : Nat → Nat) :
    synthResetEvents programs controls = specResetBlock programs controls := by
  unfold synthResetEvents specResetBlock
  rw [foldl_append_eq_flatMap]
  simp only [List.nil_append]
  exact flatMap_congr_mem _ _ _
    (fun c hc => synthChannel_eq_spec programs controls c (List.mem_range.mp hc))

lemma specResetBlock_all_message (programs controls : Nat → Nat) :
    ((specResetBlock programs controls).all
      (fun e => decide (e.type = FmidiEventType.message) &&
                decide (e.delta = 0))) = true := by
  rw [List.all_eq_true]
  intro e he
  unfold specResetBlock at he
  rw [List.mem_flatMap] at he
  obtain ⟨c, hc, he⟩ := he
  simp only [List.mem_cons, List.mem_map] at he
  rcases he with rfl | rfl | rfl | ⟨id, hid, rfl⟩ <;> simp

/-- C5: at the end of `goto_time(T)`, if and only if an event callback is
registered, the player delivers the synthesized reset block: for each channel
`c` in ascending order 0–15, an all-sound-off control change (controller 120,
value 0), a reset-all-controllers control change (controller 121, value 0), a
program change carrying the snapshot's program, then one control change per
controller id 0–127 whose snapshot value is set (below the 255 unset
sentinel), in ascending id order, with status bytes `176 + c` (nibble `1011`)
and `192 + c` (nibble `1100`); every synthesized event is a channel message
with delta 0. -/
theorem claim_C5 (st : PlayerState) (T : ℚ) :
    (fmidi_player_goto_time false T st).2 = [] ∧
    (fmidi_player_goto_time true T st).2 =
      specResetBlock
        (gotoScan T st.events.length (fmidi_player_rewind st)
          (fun _ => 0) (fun _ => 255)).2.1
        (gotoScan T st.events.length (fmidi_player_rewind st)
          (fun _ => 0) (fun _ => 255)).2.2 ∧
    ((fmidi_player_goto_time true T st).2.all
      (fun e => decide (e.type = FmidiEventType.message) &&
                decide (e.delta = 0))) = true := by
  have h2 : (fmidi_player_goto_time true T st).2 =
      synthResetEvents
        (gotoScan T st.events.length (fmidi_player_rewind st)
          (fun _ => 0) (fun _ => 255)).2.1
        (gotoScan T st.events.length (fmidi_player_rewind st)
          (fun _ => 0) (fun _ => 255)).2.2 := by
    simp [fmidi_player_goto_time, fmidi_player_rewind, fmidi_seq_rewind]
  refine ⟨by simp [fmidi_player_goto_time], ?_, ?_⟩
  · rw [h2, synthResetEvents_eq_spec]
  · rw [h2, synthResetEvents_eq_spec]
    exact specResetBlock_all_message _ _

/-- C10: `goto_time` never changes the running flag, the timer registration or
the speed, whatever the target time (and the callback registrations live
outside the mutable state it touches); and for a target time at or before
every event, a registered event callback still receives the full synthesized
reset block: exactly the all-sound-off, reset-all-controllers and
program-change-0 events for every channel 0–15. -/
theorem claim_C10 (cbr : Bool) (st : PlayerState) (T : ℚ) :
    (fmidi_player_goto_time cbr T st).1.running = st.running ∧
    (fmidi_player_goto_time cbr T st).1.timerOn = st.timerOn ∧
    (fmidi_player_goto_time cbr T st).1.speed = st.speed ∧
    ((∀ e ∈ st.events, T ≤ e.time) →
      (fmidi_player_goto_time true T st).2 =
        (List.range 16).flatMap (fun c =>
          [⟨FmidiEventType.message, 0, 3, [176 + c, 120, 0]⟩,
           ⟨FmidiEventType.message, 0, 3, [176 + c, 121, 0]⟩,
           ⟨FmidiEventType.message, 0, 2, [192 + c, 0]⟩])) := by
  rw [goto_time_state cbr T st]
  refine ⟨rfl, rfl, rfl, ?_⟩
  intro h
  have htw : st.events.takeWhile (due T) = [] := by
    cases hev : st.events with
    | nil => rfl
    | cons a l =>
      apply List.takeWhile_cons_of_neg
      have ha : T ≤ a.time := h a (by rw [hev]; exact List.mem_cons_self a l)
      simp [due]
      exact ha
  have h2 : (fmidi_player_goto_time true T st).2 =
      synthResetEvents
        (gotoScan T st.events.length (fmidi_player_rewind st)
          (fun _ => 0) (fun _ => 255)).2.1
        (gotoScan T st.events.length (fmidi_player_rewind st)
          (fun _ => 0) (fun _ => 255)).2.2 := by
    simp [fmidi_player_goto_time, fmidi_player_rewind, fmidi_seq_rewind]
  have hsnap := goto_time_snapshot T st
  rw [htw] at hsnap
  simp only [List.foldl_nil] at hsnap
  rw [h2]
  have hfst : (gotoScan T st.events.length (fmidi_player_rewind st)
      (fun _ => 0) (fun _ => 255)).2.1 = (fun _ => 0) := by
    rw [show (gotoScan T st.events.length (fmidi_player_rewind st)
      (fun _ => 0) (fun _ => 255)).2.1 =
        ((gotoScan T st.events.length (fmidi_player_rewind st)
          (fun _ => 0) (fun _ => 255)).2).1 from rfl, hsnap]
  have hsnd : (gotoScan T st.events.length (fmidi_player_rewind st)
      (fun _ => 0) (fun _ => 255)).2.2 = (fun _ => 255) := by
    rw [show (gotoScan T st.events.length (fmidi_player_rewind st)
      (fun _ => 0) (fun _ => 255)).2.2 =
        ((gotoScan T st.events.length (fmidi_player_rewind st)
          (fun _ => 0) (fun _ => 255)).2).2 from rfl, hsnap]
  rw [hfst, hsnd, synthResetEvents_eq_spec]
  unfold specResetBlock
  apply flatMap_congr_mem
  intro c hc
  simp

/-- C10 witness: at a concrete player whose single event is at time 1, seeking
to time 0 preserves the running flag and delivers the 48-event reset block. -/
theorem claim_C10_witness :
    (∀ e ∈ stExh.events, (0 : ℚ) ≤ e.time) ∧
    (fmidi_player_goto_time true 0 stExh).1.running = stExh.running ∧
    (fmidi_player_goto_time true 0 stExh).2.length = 48 := by
  refine ⟨by decide, (claim_C10 true stExh 0).1, ?_⟩
  rw [(claim_C10 true stExh 0).2.2.2 (by decide)]
  rfl

lemma pendingEvents_equiv {a b : PlayerState} (h : StEquiv a b) :
    pendingEvents a = pendingEvents b := by
  unfold StEquiv at h
  obtain ⟨h1, h2, h3, h4, h5, h6, h7, h8, h9, h10⟩ := h
  unfold pendingEvents
  rw [h2, h6]
  rcases hb : b.haveEvent with _ | _
  · simp
  · simp [h10 (h6.trans hb)]

lemma advancedTimepos_equiv {a b : PlayerState} (h : StEquiv a b) (now : ℚ) :
    advancedTimepos a now = advancedTimepos b now := by
  unfold StEquiv at h
  obtain ⟨h1, h2, h3, h4, h5, h6, h7, h8, h9, h10⟩ := h
  unfold advancedTimepos
  rw [h3, h4, h5]
  rcases hb : b.haveTick with _ | _
  · simp
  · simp [h9 (h5.trans hb)]

lemma tick_equiv (cb : Option Cb) (hcb : cbPure cb) (now : ℚ) (fuel : Nat)
    (a b : PlayerState) (hab : StEquiv a b) (hfa : a.events.length < fuel) :
    (fmidi_player_tick cb none now fuel a).trace =
      (fmidi_player_tick cb none now fuel b).trace ∧
    (fmidi_player_tick cb none now fuel a).finished =
      (fmidi_player_tick cb none now fuel b).finished ∧
    StEquiv (fmidi_player_tick cb none now fuel a).st
      (fmidi_player_tick cb none now fuel b).st := by
  have hfini : finiPure (none : Option FiniCb) := fun s => rfl
  have hpe := pendingEvents_equiv hab
  have hT := advancedTimepos_equiv hab now
  have hcopy := hab
  unfold StEquiv at hcopy
  obtain ⟨e1, e2, e3, e4, e5, e6, e7, e8, e9, e10⟩ := hcopy
  have hfb : b.events.length < fuel := by rw [← e1]; exact hfa
  obtain ⟨a1, a2, a3, a4, a5, a6, a7, a8, a9, a10, a11⟩ :=
    tick_pure cb none hcb hfini a now fuel hfa
  obtain ⟨b1, b2, b3, b4, b5, b6, b7, b8, b9, b10, b11⟩ :=
    tick_pure cb none hcb hfini b now fuel hfb
  have htr : (fmidi_player_tick cb none now fuel a).trace =
      (fmidi_player_tick cb none now fuel b).trace := by
    rw [a1, b1, hpe, hT]
  have hfin : (fmidi_player_tick cb none now fuel a).finished =
      (fmidi_player_tick cb none now fuel b).finished := by
    rw [Bool.eq_iff_iff, a9, b9, hpe, hT]
  have hhe : (fmidi_player_tick cb none now fuel a).st.haveEvent =
      (fmidi_player_tick cb none now fuel b).st.haveEvent := by
    rw [Bool.eq_iff_iff, a8, b8, hpe, hT]
  have hpend : pendingEvents (fmidi_player_tick cb none now fuel a).st =
      pendingEvents (fmidi_player_tick cb none now fuel b).st := by
    rw [a2, b2, hpe, hT]
  refine ⟨htr, hfin, ?_⟩
  have hrunning : (fmidi_player_tick cb none now fuel a).st.running =
      (fmidi_player_tick cb none now fuel b).st.running ∧
      (fmidi_player_tick cb none now fuel a).st.timerOn =
        (fmidi_player_tick cb none now fuel b).st.timerOn := by
    rcases hf : (fmidi_player_tick cb none now fuel a).finished with _ | _
    · have hfb' : (fmidi_player_tick cb none now fuel b).finished = false :=
        hfin.symm.trans hf
      obtain ⟨ar, at'⟩ := a10 hf
      obtain ⟨br, bt⟩ := b10 hfb'
      rw [ar, br, at', bt]
      exact ⟨e7, e8⟩
    · have hfb' : (fmidi_player_tick cb none now fuel b).finished = true :=
        hfin.symm.trans hf
      obtain ⟨ar, at'⟩ := a11 hf
      obtain ⟨br, bt⟩ := b11 hfb'
      rw [ar, br, at', bt]
      exact ⟨rfl, rfl⟩
  unfold StEquiv
  refine ⟨by rw [a6, b6]; exact e1, ?_, by rw [a3, b3]; exact hT,
    by rw [a7, b7]; exact e4, by rw [a5, b5], hhe, hrunning.1, hrunning.2,
    fun _ => by rw [a4, b4], ?_⟩
  · -- the unread tails agree
    rcases h : (fmidi_player_tick cb none now fuel a).st.haveEvent with _ | _
    · have h' : (fmidi_player_tick cb none now fuel b).st.haveEvent = false :=
        hhe.symm.trans h
      simp only [pendingEvents, h, h', Bool.false_eq_true, if_false,
        List.nil_append] at hpend
      exact hpend
    · have h' : (fmidi_player_tick cb none now fuel b).st.haveEvent = true :=
        hhe.symm.trans h
      simp only [pendingEvents, h, h', if_true, List.cons_append,
        List.nil_append] at hpend
      exact (List.cons.injEq _ _ _ _ ▸ hpend).2
  · -- the look-ahead slots agree when live
    intro h
    have h' : (fmidi_player_tick cb none now fuel b).st.haveEvent = true :=
      hhe.symm.trans h
    simp only [pendingEvents, h, h', if_true, List.cons_append,
      List.nil_append] at hpend
    exact (List.cons.injEq _ _ _ _ ▸ hpend).1

lemma runTicks_equiv (cb : Option Cb) (hcb : cbPure cb) (fuel : Nat) :
    ∀ (nows : List ℚ) (a b : PlayerState), StEquiv a b →
      a.events.length < fuel →
      (runTicks cb none fuel nows a).2.1 = (runTicks cb none fuel nows b).2.1 := by
  have hfini : finiPure (none : Option FiniCb) := fun s => rfl
  intro nows
  induction nows with
  | nil => intro a b hab hfa; rfl
  | cons now rest ih =>
    intro a b hab hfa
    have hto : a.timerOn = b.timerOn := by
      have hcopy := hab
      unfold StEquiv at hcopy
      exact hcopy.2.2.2.2.2.2.2.1
    have hev : a.events = b.events := by
      have hcopy := hab
      unfold StEquiv at hcopy
      exact hcopy.1
    have hfb : b.events.length < fuel := by rw [← hev]; exact hfa
    rcases h : b.timerOn with _ | _
    · have ha' : a.timerOn = false := hto.trans h
      have hstepa : runTicks cb none fuel (now :: rest) a =
          runTicks cb none fuel rest a := by simp [runTicks, ha']
      have hstepb : runTicks cb none fuel (now :: rest) b =
          runTicks cb none fuel rest b := by simp [runTicks, h]
      rw [hstepa, hstepb]
      exact ih a b hab hfa
    · have ha' : a.timerOn = true := hto.trans h
      obtain ⟨htr, hfin, heq⟩ := tick_equiv cb hcb now fuel a b hab hfa
      have hfa' : (fmidi_player_tick cb none now fuel a).st.events.length < fuel := by
        have h6 := (tick_pure cb none hcb hfini a now fuel hfa).2.2.2.2.2.1
        rw [h6]; exact hfa
      have hstepa : (runTicks cb none fuel (now :: rest) a).2.1 =
          (fmidi_player_tick cb none now fuel a).trace ++
            (runTicks cb none fuel rest (fmidi_player_tick cb none now fuel a).st).2.1 := by
        simp [runTicks, ha']
      have hstepb : (runTicks cb none fuel (now :: rest) b).2.1 =
          (fmidi_player_tick cb none now fuel b).trace ++
            (runTicks cb none fuel rest (fmidi_player_tick cb none now fuel b).st).2.1 := by
        simp [runTicks, h]
      rw [hstepa, hstepb, htr,
        ih (fmidi_player_tick cb none now fuel a).st
           (fmidi_player_tick cb none now fuel b).st heq hfa']

/-- C8: `rewind()` resets the sequence cursor to the start and `timepos` to 0
(so `current_time` reports 0), clears the tick baseline and the pending
look-ahead event, and leaves the running/stopped state (and the timer
registration) unchanged; and for a player whose speed is still the creation
default, starting after a rewind and ticking at any schedule of instants
delivers exactly the same callback trace as starting a freshly created player
on the same sequence. -/
theorem claim_C8 (cb : Option Cb) (st : PlayerState) (fuel : Nat) (nows : List ℚ)
    (hcb : cbPure cb) (hsp : st.speed = 1) (hto : st.timerOn = st.running)
    (hfuel : st.events.length < fuel) :
    (fmidi_player_rewind st).cursor = 0 ∧
    (fmidi_player_rewind st).timepos = 0 ∧
    fmidi_player_current_time (fmidi_player_rewind st) = 0 ∧
    (fmidi_player_rewind st).haveTick = false ∧
    (fmidi_player_rewind st).haveEvent = false ∧
    (fmidi_player_rewind st).running = st.running ∧
    (fmidi_player_rewind st).timerOn = st.timerOn ∧
    (runTicks cb none fuel nows (fmidi_player_start (fmidi_player_rewind st))).2.1 =
      (runTicks cb none fuel nows
        (fmidi_player_start (fmidi_player_new st.events))).2.1 := by
  refine ⟨rfl, rfl, rfl, rfl, rfl, rfl, rfl, ?_⟩
  have hev : (fmidi_player_start (fmidi_player_rewind st)).events = st.events := by
    unfold fmidi_player_start fmidi_player_rewind fmidi_seq_rewind
    split <;> rfl
  apply runTicks_equiv cb hcb fuel nows
  · unfold StEquiv
    rcases hr : st.running with _ | _
    · simp [fmidi_player_start, fmidi_player_rewind, fmidi_seq_rewind,
        fmidi_player_new, hr, hsp]
    · simp [fmidi_player_start, fmidi_player_rewind, fmidi_seq_rewind,
        fmidi_player_new, hr, hsp, hto]
  · rw [hev]; exact hfuel

/-- C8 witness: at a concrete player with default speed and consistent
timer/running flags, the rewound-and-started replay trace matches a fresh
player's. -/
theorem claim_C8_witness :
    cbPure obsCb ∧ stC2.speed = 1 ∧ stC2.timerOn = stC2.running ∧
    stC2.events.length < 10 ∧
    (runTicks obsCb none 10 [3] (fmidi_player_start (fmidi_player_rewind stC2))).2.1 =
      (runTicks obsCb none 10 [3]
        (fmidi_player_start (fmidi_player_new stC2.events))).2.1 := by
  refine ⟨fun e s => rfl, by decide, by decide, by decide, ?_⟩
  exact (claim_C8 obsCb stC2 10 [3] (fun e s => rfl) (by decide) (by decide)
    (by decide)).2.2.2.2.2.2.2

end Fmidi
